import Mathlib

/-!
Verification of the MyAsset ledger application (src/app.py) against its
specification.  The development shallowly embeds the data model and the
operations of the active revision of the app: amount parsing
(parse_currency), per-sheet and multi-currency balance computation,
row insertion, monthly aggregation (m_sum), currency conversion with
zero-rate guards, and the sheet load/save pipeline.  Machine floats are
modelled as rationals; the fallible spreadsheet read is modelled as an
Option-valued input.
-/

namespace MyAsset

/-- Truncation toward zero, as performed by the Python conversion int(x)
on a float x: the quotient of numerator by denominator rounded toward
zero. -/
def pyTrunc (q : ℚ) : Int := q.num.tdiv q.den

/-- Characters 0 through 9. -/
def isDigitChar (c : Char) : Bool := 48 ≤ c.toNat && c.toNat ≤ 57

/-- Numeric value of a digit character. -/
def digitVal (c : Char) : Nat := c.toNat - 48

/-- Digit character for a digit value below ten. -/
def digitChar (d : Nat) : Char := Char.ofNat (48 + d)

/-- Numeric value of a digit string, most significant digit first. -/
def natVal (l : List Char) : Nat := l.foldl (fun a c => 10 * a + digitVal c) 0

/-- Unsigned decimal literal: digits, an optional decimal point, digits,
with at least one digit present overall.  The returned rational is the
exact decimal value (the rounding of that value to an IEEE double by the
Python float constructor is not modelled). -/
def parseDecUnsigned (l : List Char) : Option ℚ :=
  let intPart := l.takeWhile isDigitChar
  match l.dropWhile isDigitChar with
  | [] => if intPart.isEmpty then none else some ((natVal intPart : ℚ))
  | '.' :: frac =>
    if frac.all isDigitChar && !(intPart.isEmpty && frac.isEmpty) then
      some (Rat.divInt ((natVal intPart * 10 ^ frac.length + natVal frac : ℕ) : ℤ)
        ((10 ^ frac.length : ℕ) : ℤ))
    else none
  | _ => none

/-- Decimal fragment of the Python float literal grammar used by
parse_currency on text input: an optional sign followed by an unsigned
decimal literal.  Exponents, infinities and NaN are outside the fragment
exercised by sheet amounts and are not representable here. -/
def parseDec : List Char → Option ℚ
  | '-' :: r => (parseDecUnsigned r).map (fun q => -q)
  | '+' :: r => parseDecUnsigned r
  | l => parseDecUnsigned l

/-- An amount as it arrives at parse_currency: a native number (int or
float, modelled as a rational) or free text. -/
inductive Value where
  | num (q : ℚ)
  | str (s : String)
deriving DecidableEq

/-- Removal of leading and trailing whitespace, as in the Python method
str.strip. -/
def pyStrip (l : List Char) : List Char :=
  ((l.dropWhile Char.isWhitespace).reverse.dropWhile Char.isWhitespace).reverse

/-- Embedding of parse_currency (src/app.py lines 67 to 73): numeric input
is truncated to an integer; text input has every comma removed and is
stripped, yields 0 when empty, is otherwise parsed as a float and
truncated; any parse failure yields 0. -/
def parse_currency : Value → Int
  | .num q => pyTrunc q
  | .str s =>
    let cleaned := pyStrip (s.data.filter (fun c => c ≠ ','))
    if cleaned.isEmpty then 0
    else
      match parseDec cleaned with
      | some q => pyTrunc q
      | none => 0

/-- The cleaned character list parse_currency derives from a text input. -/
def cleanedOf (s : String) : List Char := pyStrip (s.data.filter (fun c => c ≠ ','))

/-- The input value denotes a negative number: a negative native number, or
text whose cleaned form parses to a negative decimal. -/
def denotesNegative : Value → Prop
  | .num q => q < 0
  | .str s => ∃ x, parseDec (cleanedOf s) = some x ∧ x < 0

theorem pyTrunc_nonneg {q : ℚ} (h : 0 ≤ q) : 0 ≤ pyTrunc q :=
  Int.tdiv_nonneg (Rat.num_nonneg.mpr h) (Int.ofNat_nonneg q.den)

/-- C6: parse_currency maps the text input consisting of the characters
one comma two three four point nine to 1234, the empty text to 0, the
text abc to 0, and the numeric input -5 to -5. -/
theorem parse_currency_concrete :
    parse_currency (.str ("1,234.9")) = 1234 ∧
    parse_currency (.str ("")) = 0 ∧
    parse_currency (.str ("abc")) = 0 ∧
    parse_currency (.num (-5)) = -5 := by
  refine ⟨?_, ?_, ?_, ?_⟩ <;> decide

/-- C3 counterexample: on the numeric input -5 parse_currency returns -5,
a negative integer, so the parser does not return a non-negative integer
on every input. -/
theorem parse_currency_negative_output :
    parse_currency (.num (-5)) = -5 ∧ ¬ (0 ≤ parse_currency (.num (-5))) := by
  decide

/-- C3 amended: parse_currency is a total function into the integers (the
embedding returns a value on every input, mirroring the catch-all except
branch), and its result is non-negative unless the input itself denotes a
negative number, which passes through. -/
theorem parse_currency_sign (v : Value) :
    0 ≤ parse_currency v ∨ denotesNegative v := by
  cases v with
  | num q =>
    by_cases h : q < 0
    · exact Or.inr h
    · exact Or.inl (pyTrunc_nonneg (le_of_not_lt h))
  | str s =>
    show (0 : ℤ) ≤ (if (cleanedOf s).isEmpty then (0 : ℤ)
        else match parseDec (cleanedOf s) with
          | some q => pyTrunc q
          | none => (0 : ℤ)) ∨ _
    by_cases he : (cleanedOf s).isEmpty
    · rw [if_pos he]; exact Or.inl le_rfl
    · rw [if_neg he]
      cases hp : parseDec (cleanedOf s) with
      | none => exact Or.inl le_rfl
      | some x =>
        by_cases hx : x < 0
        · exact Or.inr ⟨x, hp, hx⟩
        · exact Or.inl (pyTrunc_nonneg (le_of_not_lt hx))

/-- A calendar date, year-month-day. -/
structure Date where
  year : Nat
  month : Nat
  day : Nat
deriving DecidableEq

/-- One ledger row: the five columns 날짜, 구분, 카테고리, 금액, 메모 of the
sheet.  The amount cell is kept raw (number or text); aggregation applies
parse_currency to it, as the source does. -/
structure Row where
  date : Date
  kind : String
  category : String
  amount : Value
  memo : String
deriving DecidableEq

/-- Cumulative income of a ledger: sum of parsed amounts of the rows whose
구분 cell is 수입 (src/app.py lines 207 to 208). -/
def incomeSum (rows : List Row) : Int :=
  ((rows.filter (fun r => r.kind == "수입")).map (fun r => parse_currency r.amount)).sum

/-- Cumulative expense of a ledger: sum of parsed amounts of the rows whose
구분 cell is 지출 (src/app.py lines 207 and 209). -/
def expenseSum (rows : List Row) : Int :=
  ((rows.filter (fun r => r.kind == "지출")).map (fun r => parse_currency r.amount)).sum

/-- Net balance of the currently selected sheet (src/app.py lines 205 to
212): income minus expense over the whole ledger, 0 for an empty ledger. -/
def asset (rows : List Row) : Int :=
  if rows.isEmpty then 0 else incomeSum rows - expenseSum rows

/-- Net balance of one currency in the sidebar loop (src/app.py lines 144
to 151): the same income-minus-expense computation applied to that
currency's loaded sheet, 0 when the sheet is empty. -/
def netAssetOf (rows : List Row) : Int :=
  if rows.isEmpty then 0 else incomeSum rows - expenseSum rows

/-- Embedding of the save-button handler (src/app.py lines 185 to 199):
parse the amount text; when the parsed amount is positive, append exactly
one new row holding the parsed amount and persist the result; otherwise
issue a warning and leave the ledger untouched.  The Bool records whether
save_data ran. -/
def insertRow (df : List Row) (d : Date) (k c : String) (amountStr : Value)
    (memo : String) : List Row × Bool :=
  let final_amount := parse_currency amountStr
  if 0 < final_amount then
    (df ++ [⟨d, k, c, .num (final_amount : ℚ), memo⟩], true)
  else
    (df, false)

/-- The two-row scenario of the spec: income 500000 on 2025-01-15 and
expense 12000 on 2025-01-16, inserted into an empty KRW ledger. -/
def scenarioRows : List Row :=
  (insertRow ((insertRow [] ⟨2025, 1, 15⟩ "수입" "월급" (.str ("500000")) "").1)
    ⟨2025, 1, 16⟩ "지출" "식비" (.str ("12000")) "").1

/-- C4: the net balance of a ledger equals cumulative income minus
cumulative expense over the entire ledger, both for the per-sheet metric
and for the sidebar per-currency computation; an empty ledger has net
balance 0; and the concrete scenario (income 500000, expense 12000 in
KRW) yields net balance 488000. -/
theorem asset_is_income_minus_expense :
    (∀ rows : List Row, asset rows = incomeSum rows - expenseSum rows ∧
      netAssetOf rows = incomeSum rows - expenseSum rows) ∧
    asset [] = 0 ∧ netAssetOf [] = 0 ∧ asset scenarioRows = 488000 := by
  refine ⟨fun rows => ?_, by decide, by decide, by decide⟩
  cases rows with
  | nil => refine ⟨rfl, rfl⟩
  | cons r t =>
    constructor <;> simp [asset, netAssetOf]

/-- C9: when the parsed amount is positive, the insert operation appends
exactly one new row carrying the given date, kind, category, parsed
amount and memo after all existing rows, and saves; when the parsed
amount is not positive, no row is created, nothing is saved, and the
ledger is unchanged. -/
theorem insertRow_spec (df : List Row) (d : Date) (k c : String) (a : Value)
    (m : String) :
    (0 < parse_currency a →
      insertRow df d k c a m =
        (df ++ [⟨d, k, c, .num ((parse_currency a : ℤ) : ℚ), m⟩], true)) ∧
    (¬ 0 < parse_currency a → insertRow df d k c a m = (df, false)) := by
  constructor <;> intro h <;> simp [insertRow, h]

/-- Witness for the insert claim: inserting amount text 500000 into the
empty ledger appends one income row and saves, and inserting the
unparseable amount text abc leaves the ledger unchanged and unsaved. -/
theorem insertRow_spec_witness :
    insertRow [] ⟨2025, 1, 15⟩ "수입" "월급" (.str ("500000")) "" =
      ([⟨⟨2025, 1, 15⟩, "수입", "월급",
        .num ((parse_currency (.str ("500000")) : ℤ) : ℚ), ""⟩], true) ∧
    insertRow [] ⟨2025, 1, 15⟩ "지출" "식비" (.str ("abc")) "" = ([], false) := by
  constructor
  · exact (insertRow_spec [] ⟨2025, 1, 15⟩ "수입" "월급" (.str ("500000")) "").1
      (by decide)
  · exact (insertRow_spec [] ⟨2025, 1, 15⟩ "지출" "식비" (.str ("abc")) "").2
      (by decide)

/-- A row of known kind: its 구분 cell is the income label or the expense
label. -/
def knownKind (r : Row) : Bool := r.kind == "수입" || r.kind == "지출"

theorem filter_knownKind_income (rows : List Row) :
    (rows.filter knownKind).filter (fun r => r.kind == "수입") =
      rows.filter (fun r => r.kind == "수입") := by
  rw [List.filter_filter]
  refine List.filter_congr (fun r _ => ?_)
  cases h : r.kind == "수입" <;> simp [knownKind, h]

theorem filter_knownKind_expense (rows : List Row) :
    (rows.filter knownKind).filter (fun r => r.kind == "지출") =
      rows.filter (fun r => r.kind == "지출") := by
  rw [List.filter_filter]
  refine List.filter_congr (fun r _ => ?_)
  cases h : r.kind == "지출" <;> simp [knownKind, h]

theorem incomeSum_filter_knownKind (rows : List Row) :
    incomeSum (rows.filter knownKind) = incomeSum rows := by
  unfold incomeSum
  rw [filter_knownKind_income]

theorem expenseSum_filter_knownKind (rows : List Row) :
    expenseSum (rows.filter knownKind) = expenseSum rows := by
  unfold expenseSum
  rw [filter_knownKind_expense]

/-- C10: rows whose 구분 cell is neither 수입 nor 지출 contribute to none of
the aggregates: removing them changes neither cumulative income,
cumulative expense, the per-sheet net balance, nor the per-currency net
asset figure. -/
theorem unknown_kind_rows_excluded (rows : List Row) :
    incomeSum (rows.filter knownKind) = incomeSum rows ∧
    expenseSum (rows.filter knownKind) = expenseSum rows ∧
    asset (rows.filter knownKind) = asset rows ∧
    netAssetOf (rows.filter knownKind) = netAssetOf rows := by
  refine ⟨incomeSum_filter_knownKind rows, expenseSum_filter_knownKind rows, ?_, ?_⟩ <;>
  · show (if (rows.filter knownKind).isEmpty then 0
        else incomeSum (rows.filter knownKind) - expenseSum (rows.filter knownKind)) =
      if rows.isEmpty then 0 else incomeSum rows - expenseSum rows
    rw [incomeSum_filter_knownKind, expenseSum_filter_knownKind]
    cases hf : (rows.filter knownKind).isEmpty with
    | false =>
      have hr : rows.isEmpty = false := by
        cases hr : rows.isEmpty with
        | false => rfl
        | true =>
          rw [List.isEmpty_iff] at hr
          subst hr
          simp at hf
      rw [hr]
    | true =>
      have h1 : incomeSum rows = 0 := by
        rw [← incomeSum_filter_knownKind rows]
        rw [List.isEmpty_iff] at hf
        rw [hf]
        rfl
      have h2 : expenseSum rows = 0 := by
        rw [← expenseSum_filter_knownKind rows]
        rw [List.isEmpty_iff] at hf
        rw [hf]
        rfl
      rw [h1, h2]
      cases rows.isEmpty <;> simp

/-- The row produced by retagging a row whose category was deleted. -/
def retag (x : String) (r : Row) : Row :=
  if r.category = x then ⟨r.date, r.kind, "기타", r.amount, r.memo⟩ else r

/-- Modelled from the spec: the checked-in revision fixes the category
list (src/app.py line 116, categories = DEFAULT_CATEGORIES) and exposes
no delete-category operation, so the cascade of spec section 4.4 is
modelled from the spec text: deleting category x removes it from the
session-only custom list if present, rewrites every ledger row tagged x
to the fallback category 기타 (the "other" bucket of the default list),
and persists the rewritten ledger immediately; the Bool records that
eager save. -/
def delete_category (custom : List String) (rows : List Row) (x : String) :
    List String × List Row × Bool :=
  (custom.erase x, rows.map (retag x), true)

theorem countP_retag_deleted (rows : List Row) (x : String) :
    (rows.map (retag x)).countP (fun r => r.category == x) = 0 ∨ x = "기타" := by
  by_cases hx : x = "기타"
  · exact Or.inr hx
  · refine Or.inl ?_
    induction rows with
    | nil => rfl
    | cons r t ih =>
      by_cases h : r.category = x <;>
        simp [retag, h, List.countP_cons, ih, hx, Ne.symm hx]

theorem countP_retag_fallback (rows : List Row) (x : String) (hx : x ≠ "기타") :
    (rows.map (retag x)).countP (fun r => r.category == "기타") =
      rows.countP (fun r => r.category == "기타") +
        rows.countP (fun r => r.category == x) := by
  induction rows with
  | nil => rfl
  | cons r t ih =>
    by_cases h : r.category = x
    · simp only [List.map_cons, List.countP_cons, retag, if_pos h, ih]
      have e1 : (r.category == "기타") = false :=
        beq_eq_false_iff_ne.mpr (by rw [h]; exact hx)
      rw [show ((⟨r.date, r.kind, "기타", r.amount, r.memo⟩ : Row).category ==
            "기타") = true from beq_self_eq_true _,
        e1, show (r.category == x) = true from beq_iff_eq.mpr h]
      simp
      omega
    · simp only [List.map_cons, List.countP_cons, retag, if_neg h, ih,
        show (r.category == x) = false from beq_eq_false_iff_ne.mpr h]
      simp
      by_cases hc : r.category = "기타"
      · simp only [if_pos hc]
        omega
      · simp only [if_neg hc]
        omega

theorem retag_preserves_other_fields (rows : List Row) (x : String) :
    (rows.map (retag x)).map (fun r => (r.date, r.kind, r.amount, r.memo)) =
      rows.map (fun r => (r.date, r.kind, r.amount, r.memo)) := by
  induction rows with
  | nil => rfl
  | cons r t ih =>
    by_cases h : r.category = x <;> simp [retag, h, ih]

/-- C2: deleting category x (not itself the fallback) leaves zero rows
tagged x, retags exactly the rows previously tagged x as the fallback
category 기타 with every other field unchanged, and eagerly persists the
rewritten ledger. -/
theorem delete_category_cascade (custom : List String) (rows : List Row)
    (x : String) (hx : x ≠ "기타") :
    (delete_category custom rows x).2.1.countP (fun r => r.category == x) = 0 ∧
    (delete_category custom rows x).2.1.countP (fun r => r.category == "기타") =
      rows.countP (fun r => r.category == "기타") +
        rows.countP (fun r => r.category == x) ∧
    (delete_category custom rows x).2.1.map
        (fun r => (r.date, r.kind, r.amount, r.memo)) =
      rows.map (fun r => (r.date, r.kind, r.amount, r.memo)) ∧
    (delete_category custom rows x).2.2 = true := by
  refine ⟨?_, countP_retag_fallback rows x hx,
    retag_preserves_other_fields rows x, rfl⟩
  rcases countP_retag_deleted rows x with h | h
  · exact h
  · exact absurd h hx

/-- Sample ledger for the cascade witness: one row tagged X, one row
already tagged 기타. -/
def cascadeRows : List Row :=
  [⟨⟨2025, 1, 1⟩, "지출", "X", .num 5, ""⟩,
   ⟨⟨2025, 1, 2⟩, "지출", "기타", .num 7, ""⟩]

/-- Witness for the cascade claim at a concrete ledger and category. -/
theorem delete_category_cascade_witness :
    (delete_category ["X"] cascadeRows "X").2.1.countP
        (fun r => r.category == "X") = 0 ∧
    (delete_category ["X"] cascadeRows "X").2.1.countP
        (fun r => r.category == "기타") =
      cascadeRows.countP (fun r => r.category == "기타") +
        cascadeRows.countP (fun r => r.category == "X") ∧
    (delete_category ["X"] cascadeRows "X").2.1.map
        (fun r => (r.date, r.kind, r.amount, r.memo)) =
      cascadeRows.map (fun r => (r.date, r.kind, r.amount, r.memo)) ∧
    (delete_category ["X"] cascadeRows "X").2.2 = true :=
  delete_category_cascade ["X"] cascadeRows "X" (by decide)

/-- Cross rate TWD to KRW derived from the two USD-quoted rates
(src/app.py lines 157 to 158): the quotient when the divisor rate is
positive, and 0 otherwise. -/
def rate_twd_krw (r_uk r_ut : ℚ) : ℚ := if 0 < r_ut then r_uk / r_ut else 0

/-- Total assets in KRW (src/app.py line 160): KRW net plus USD net times
the USD rate plus TWD net times the derived cross rate. -/
def total_asset_krw (nk nu nt : Int) (r_uk r_ut : ℚ) : ℚ :=
  (nk : ℚ) + (nu : ℚ) * r_uk + (nt : ℚ) * rate_twd_krw r_uk r_ut

/-- Total assets re-expressed in USD (src/app.py line 161): the KRW total
divided by the USD-KRW rate when that rate is positive, 0 otherwise. -/
def total_asset_usd (nk nu nt : Int) (r_uk r_ut : ℚ) : ℚ :=
  if 0 < r_uk then total_asset_krw nk nu nt r_uk r_ut / r_uk else 0

/-- Total assets re-expressed in TWD (src/app.py line 162): the USD total
times the USD-TWD rate. -/
def total_asset_twd (nk nu nt : Int) (r_uk r_ut : ℚ) : ℚ :=
  total_asset_usd nk nu nt r_uk r_ut * r_ut

/-- C8: with a zero USD-KRW rate the USD total is 0, with a zero USD-TWD
rate the derived cross rate is 0 and the TWD total is 0; no division
error can arise since every division is guarded by a positivity test. -/
theorem conversion_zero_safe (nk nu nt : Int) (r_uk r_ut : ℚ) :
    (r_uk = 0 → total_asset_usd nk nu nt r_uk r_ut = 0) ∧
    (r_ut = 0 → rate_twd_krw r_uk r_ut = 0) ∧
    (r_ut = 0 → total_asset_twd nk nu nt r_uk r_ut = 0) := by
  refine ⟨fun h => ?_, fun h => ?_, fun h => ?_⟩
  · rw [total_asset_usd, h, if_neg (lt_irrefl 0)]
  · rw [rate_twd_krw, h, if_neg (lt_irrefl 0)]
  · rw [total_asset_twd, h, mul_zero]

/-- Witness for conversion zero-safety at concrete net balances 1, 2, 3
and zero rates. -/
theorem conversion_zero_safe_witness :
    total_asset_usd 1 2 3 0 5 = 0 ∧ rate_twd_krw 7 0 = 0 ∧
    total_asset_twd 1 2 3 7 0 = 0 :=
  ⟨(conversion_zero_safe 1 2 3 0 5).1 rfl,
   (conversion_zero_safe 1 2 3 7 0).2.1 rfl,
   (conversion_zero_safe 1 2 3 7 0).2.2 rfl⟩

/-- Group key of a row in the monthly aggregation: month of its date and
its 구분 cell. -/
def keyOf (r : Row) : Nat × String := (r.date.month, r.kind)

/-- Order on group keys mirroring the sorted group order of the pandas
groupby: by month, then by the kind label. -/
def keyLE (a b : Nat × String) : Prop :=
  a.1 < b.1 ∨ (a.1 = b.1 ∧ (a.2 < b.2 ∨ a.2 = b.2))

instance : DecidableRel keyLE := fun a b => by
  unfold keyLE
  infer_instance

/-- The year filter applied before the monthly chart (src/app.py line
228): rows of the selected year. -/
def dfYear (rows : List Row) (y : Nat) : List Row :=
  rows.filter (fun r => r.date.year == y)

/-- Embedding of m_sum (src/app.py lines 234 to 235): group the year's
rows by month and 구분, in sorted key order, and sum the parsed amounts of
each group.  One entry per key that actually occurs. -/
def m_sum (rows : List Row) : List (Nat × String × Int) :=
  (List.insertionSort keyLE (rows.map keyOf).dedup).map
    (fun k => (k.1, k.2,
      ((rows.filter (fun r => keyOf r == k)).map
        (fun r => parse_currency r.amount)).sum))

/-- Ledger with activity only in March (one income row) and November (one
expense row) of 2025: the gap example of the spec. -/
def sparseRows : List Row :=
  [⟨⟨2025, 3, 15⟩, "수입", "월급", .num 100, ""⟩,
   ⟨⟨2025, 11, 2⟩, "지출", "식비", .num 50, ""⟩]

/-- C1 counterexample: for the year 2025 of the sparse ledger the monthly
aggregation holds one income entry and one expense entry, not twelve
entries per kind; months without rows are omitted, not reported as
zero. -/
theorem m_sum_not_gap_filled :
    ((m_sum (dfYear sparseRows 2025)).filter
      (fun e => e.2.1 == "수입")).length = 1 ∧
    ((m_sum (dfYear sparseRows 2025)).filter
      (fun e => e.2.1 == "지출")).length = 1 ∧
    ¬ (((m_sum (dfYear sparseRows 2025)).filter
      (fun e => e.2.1 == "수입")).length = 12) := by
  refine ⟨?_, ?_, ?_⟩ <;> decide

theorem countP_beq_dedup {α : Type _} [DecidableEq α] [BEq α] [LawfulBEq α]
    (l : List α) (a : α) :
    List.countP (fun b => b == a) l.dedup = if a ∈ l then 1 else 0 := by
  induction l with
  | nil => simp
  | cons x t ih =>
    by_cases hx : x ∈ t
    · rw [List.dedup_cons_of_mem hx, ih]
      by_cases ha : a ∈ t
      · rw [if_pos ha, if_pos (List.mem_cons_of_mem x ha)]
      · rw [if_neg ha, if_neg ?_]
        intro hc
        rcases List.mem_cons.mp hc with h | h
        · exact ha (h ▸ hx)
        · exact ha h
    · rw [List.dedup_cons_of_not_mem hx, List.countP_cons, ih]
      by_cases ha : a = x
      · subst ha
        rw [beq_self_eq_true, if_neg hx, if_pos (List.mem_cons_self a t)]
        simp
      · have hxa : (x == a) = false := beq_eq_false_iff_ne.mpr (fun h => ha h.symm)
        rw [hxa]
        by_cases hat : a ∈ t
        · rw [if_pos hat, if_pos (List.mem_cons_of_mem x hat)]
          simp
        · have hnc : a ∉ x :: t := by
            intro hc
            rcases List.mem_cons.mp hc with h | h
            · exact ha h
            · exact hat h
          rw [if_neg hat, if_neg hnc]
          simp

/-- C1 amended: the monthly aggregation produces exactly one entry for
each month-kind pair that has at least one row in the selected year, the
value of that entry being the sum of the parsed amounts of the matching
rows; month-kind pairs with no rows are omitted rather than reported as
zero. -/
theorem m_sum_entries (rows : List Row) (y : Nat) :
    (∀ (m : Nat) (k : String),
      ((m_sum (dfYear rows y)).filter
        (fun e => e.1 == m && e.2.1 == k)).length =
      if (m, k) ∈ (dfYear rows y).map keyOf then 1 else 0) ∧
    (∀ e, e ∈ m_sum (dfYear rows y) →
      e.2.2 = (((dfYear rows y).filter (fun r => keyOf r == (e.1, e.2.1))).map
        (fun r => parse_currency r.amount)).sum) := by
  constructor
  · intro m k
    rw [← List.countP_eq_length_filter]
    unfold m_sum
    rw [List.countP_map, (List.perm_insertionSort keyLE _).countP_eq]
    have h2 : List.countP
        ((fun e : Nat × String × Int => e.1 == m && e.2.1 == k) ∘
          (fun k' : Nat × String => (k'.1, k'.2,
            (((dfYear rows y).filter (fun r => keyOf r == k')).map
              (fun r => parse_currency r.amount)).sum)))
        (((dfYear rows y).map keyOf).dedup) =
        List.countP (fun b => b == (m, k))
          (((dfYear rows y).map keyOf).dedup) := by
      refine List.countP_congr (fun a _ => ?_)
      show (a.1 == m && a.2 == k) = true ↔ (a == (m, k)) = true
      simp only [Bool.and_eq_true, beq_iff_eq, Prod.ext_iff]
    rw [h2, countP_beq_dedup]
  · intro e he
    unfold m_sum at he
    obtain ⟨k', _, rfl⟩ := List.mem_map.1 he
    rfl

/-- Witness for the amended aggregation claim at the sparse ledger: the
March income pair yields exactly one entry, and the income entry's value
is the sum of the parsed amounts of the matching rows. -/
theorem m_sum_entries_witness :
    ((m_sum (dfYear sparseRows 2025)).filter
      (fun e => e.1 == 3 && e.2.1 == "수입")).length = 1 ∧
    ((3, "수입", (100 : Int)).2.2 =
      (((dfYear sparseRows 2025).filter (fun r => keyOf r == (3, "수입"))).map
        (fun r => parse_currency r.amount)).sum) := by
  constructor
  · rw [(m_sum_entries sparseRows 2025).1 3 "수입"]
    decide
  · exact (m_sum_entries sparseRows 2025).2 (3, "수입", 100) (by decide)

/-- Decimal digit list of n, most significant digit first. -/
def renderNat (n : Nat) : List Char := ((Nat.digits 10 n).reverse).map digitChar

/-- Left zero padding to width w, as in the zero-padded strftime fields. -/
def padZero (w : Nat) (l : List Char) : List Char :=
  List.replicate (w - l.length) '0' ++ l

/-- A non-empty all-digit string read as a number. -/
def parseNat (l : List Char) : Option Nat :=
  if l.isEmpty then none
  else if l.all isDigitChar then some (natVal l) else none

/-- Gregorian leap year. -/
def isLeap (y : Nat) : Bool := (y % 4 == 0 && y % 100 != 0) || y % 400 == 0

/-- Length of a month in the Gregorian calendar. -/
def daysInMonth (y m : Nat) : Nat :=
  if m == 2 then (if isLeap y then 29 else 28)
  else if m == 4 || m == 6 || m == 9 || m == 11 then 30
  else 31

/-- A date the ledger can carry: a real calendar day within the range
representable by the nanosecond datetime64 values pandas uses (we take the
full years 1678 to 2261).  Out-of-range or impossible dates are coerced to
NaT on load and the row is dropped. -/
def validDate (d : Date) : Bool :=
  1678 ≤ d.year && d.year ≤ 2261 && 1 ≤ d.month && d.month ≤ 12 &&
    1 ≤ d.day && d.day ≤ daysInMonth d.year d.month

/-- The strftime format of save_data (src/app.py line 61): four-digit
year, two-digit month, two-digit day, hyphen-separated. -/
def formatDate (d : Date) : List Char :=
  padZero 4 (renderNat d.year) ++
    '-' :: (padZero 2 (renderNat d.month) ++ '-' :: padZero 2 (renderNat d.day))

/-- Split a character list at every hyphen. -/
def splitDash : List Char → List (List Char)
  | [] => [[]]
  | c :: cs =>
    match splitDash cs with
    | [] => [[]]
    | h :: t => if c = '-' then [] :: h :: t else (c :: h) :: t

/-- The ISO year-month-day fragment of the pandas datetime parser used on
the 날짜 column: three hyphen-separated numbers forming a valid ledger
date; anything else is NaT. -/
def parseDate (l : List Char) : Option Date :=
  match splitDash l with
  | [ys, ms, ds] =>
    match parseNat ys, parseNat ms, parseNat ds with
    | some y, some m, some d =>
      if validDate ⟨y, m, d⟩ then some ⟨y, m, d⟩ else none
    | _, _, _ => none
  | _ => none

/-- One spreadsheet cell: text, a number, or (after load) a parsed date. -/
inductive Cell where
  | str (s : String)
  | num (q : ℚ)
  | date (d : Date)
deriving DecidableEq

/-- A raw tabular sheet as returned by the spreadsheet read: named columns
and rows of cells positionally aligned with the column list. -/
structure RawFrame where
  cols : List String
  rows : List (List Cell)
deriving DecidableEq

/-- The five required ledger columns. -/
def requiredCols : List String := ["날짜", "구분", "카테고리", "금액", "메모"]

/-- The empty ledger frame returned on an empty or failing read. -/
def emptyFrame : RawFrame := ⟨requiredCols, []⟩

/-- Synthesize one missing column as blanks (src/app.py lines 43 to 46). -/
def ensureCol (f : RawFrame) (c : String) : RawFrame :=
  if c ∈ f.cols then f
  else ⟨f.cols ++ [c], f.rows.map (fun row => row ++ [Cell.str ("")])⟩

/-- Ensure all five required columns exist. -/
def addMissing (f : RawFrame) : RawFrame := requiredCols.foldl ensureCol f

/-- pd.to_datetime with coercion on one 날짜 cell: a text cell is parsed
as a date, an already-parsed date passes through, and a numeric cell is
treated as unparseable (NaT). -/
def parseDateCell : Cell → Option Date
  | .str s => parseDate s.data
  | .date d => some d
  | .num _ => none

/-- The date-normalization step of load (src/app.py lines 49 to 50):
parse the 날짜 cell at column position i of every row, replace it by the
parsed date, and drop the rows whose date fails to parse. -/
def dropBadDates (i : Nat) : List (List Cell) → List (List Cell)
  | [] => []
  | row :: rest =>
    match parseDateCell (row.getD i (Cell.str (""))) with
    | some d => row.set i (Cell.date d) :: dropBadDates i rest
    | none => dropBadDates i rest

/-- Embedding of load_data (src/app.py lines 32 to 54).  The input none
models a read that raises; an empty row list models an empty sheet; both
yield the empty five-column frame.  Otherwise the five required columns
are synthesized if missing, the 날짜 column is parsed, and rows whose date
fails to parse are dropped. -/
def load_data (input : Option RawFrame) : RawFrame :=
  match input with
  | none => emptyFrame
  | some f =>
    if f.rows.isEmpty then emptyFrame
    else
      let f1 := addMissing f
      ⟨f1.cols, dropBadDates (f1.cols.findIdx (fun c => c == "날짜")) f1.rows⟩

/-- The cell written for a raw amount value. -/
def cellOfValue : Value → Cell
  | .num q => .num q
  | .str s => .str s

/-- One ledger row as written by save_data: date serialized to text, the
remaining cells written as-is. -/
def serializeRow (r : Row) : List Cell :=
  [Cell.str ⟨formatDate r.date⟩, Cell.str r.kind, Cell.str r.category,
    cellOfValue r.amount, Cell.str r.memo]

/-- One ledger row as it appears after loading the saved sheet: the date
cell parsed back into a calendar date, the rest unchanged. -/
def loadedRow (r : Row) : List Cell :=
  [Cell.date r.date, Cell.str r.kind, Cell.str r.category,
    cellOfValue r.amount, Cell.str r.memo]

/-- Embedding of save_data (src/app.py lines 56 to 65) applied to a
ledger: the date of each row is serialized through strftime to
year-month-day text and the sheet is overwritten with exactly these
rows in the five-column order. -/
def save_frame (rows : List Row) : RawFrame :=
  ⟨requiredCols, rows.map serializeRow⟩

theorem mem_ensureCol_of_mem {d : String} (f : RawFrame) (c : String)
    (h : d ∈ f.cols) : d ∈ (ensureCol f c).cols := by
  unfold ensureCol
  by_cases hc : c ∈ f.cols
  · rw [if_pos hc]
    exact h
  · rw [if_neg hc]
    exact List.mem_append_left _ h

theorem mem_ensureCol_self (f : RawFrame) (c : String) :
    c ∈ (ensureCol f c).cols := by
  unfold ensureCol
  by_cases hc : c ∈ f.cols
  · rw [if_pos hc]
    exact hc
  · rw [if_neg hc]
    exact List.mem_append_right _ (List.mem_singleton.mpr rfl)

theorem mem_foldl_ensureCol_of_mem {d : String} (cs : List String)
    (f : RawFrame) (h : d ∈ f.cols) : d ∈ (cs.foldl ensureCol f).cols := by
  induction cs generalizing f with
  | nil => exact h
  | cons c cs ih => exact ih _ (mem_ensureCol_of_mem f c h)

theorem mem_foldl_ensureCol {c : String} (cs : List String) (f : RawFrame)
    (h : c ∈ cs) : c ∈ (cs.foldl ensureCol f).cols := by
  induction cs generalizing f with
  | nil => cases h
  | cons x cs ih =>
    rcases List.mem_cons.mp h with h | h
    · subst h
      exact mem_foldl_ensureCol_of_mem cs _ (mem_ensureCol_self f c)
    · exact ih _ h

/-- C5: on every possible read outcome the loaded frame contains the five
required columns, and a failing read or an empty sheet yields exactly the
empty five-column frame; the embedding is a total function, mirroring the
catch-all exception handler that converts any read error into the empty
default. -/
theorem load_data_shape (input : Option RawFrame) :
    (∀ c ∈ requiredCols, c ∈ (load_data input).cols) ∧
    (input = none → load_data input = emptyFrame) ∧
    (∀ f, input = some f → f.rows = [] → load_data input = emptyFrame) := by
  refine ⟨?_, ?_, ?_⟩
  · intro c hc
    cases input with
    | none => exact hc
    | some f =>
      show c ∈ (if f.rows.isEmpty then emptyFrame else _).cols
      by_cases he : f.rows.isEmpty
      · rw [if_pos he]
        exact hc
      · rw [if_neg he]
        exact mem_foldl_ensureCol requiredCols f hc
  · intro h
    subst h
    rfl
  · intro f h he
    subst h
    show (if f.rows.isEmpty then emptyFrame else _) = emptyFrame
    rw [if_pos (List.isEmpty_iff.mpr he)]

/-- Witness for the load-shape claim: a one-column numeric frame still
loads with the 날짜 column present, and a failing read loads as the empty
frame. -/
theorem load_data_shape_witness :
    "날짜" ∈ (load_data (some ⟨["foo"], [[Cell.num 3]]⟩)).cols ∧
    load_data none = emptyFrame :=
  ⟨(load_data_shape (some ⟨["foo"], [[Cell.num 3]]⟩)).1 "날짜" (by decide),
   (load_data_shape none).2.1 rfl⟩

theorem digitVal_digitChar : ∀ d < 10, digitVal (digitChar d) = d := by decide

theorem isDigitChar_digitChar : ∀ d < 10, isDigitChar (digitChar d) = true := by
  decide

theorem digitChar_ne_dash : ∀ d < 10, digitChar d ≠ '-' := by decide

theorem foldl_map_digitChar (ds : List Nat) (h : ∀ d ∈ ds, d < 10) :
    ∀ acc : Nat,
      (ds.map digitChar).foldl (fun a c => 10 * a + digitVal c) acc =
        Nat.ofDigits 10 ds.reverse + acc * 10 ^ ds.length := by
  induction ds with
  | nil =>
    intro acc
    simp [Nat.ofDigits]
  | cons d ds ih =>
    intro acc
    have hd : d < 10 := h d (List.mem_cons_self d ds)
    have ih2 := ih (fun x hx => h x (List.mem_cons_of_mem d hx))
    simp only [List.map_cons, List.foldl_cons, digitVal_digitChar d hd, ih2,
      List.reverse_cons, Nat.ofDigits_append, List.length_reverse,
      List.length_cons]
    have : Nat.ofDigits 10 [d] = d := by simp [Nat.ofDigits]
    rw [this]
    ring

theorem natVal_padZero_renderNat (w n : Nat) :
    natVal (padZero w (renderNat n)) = n := by
  unfold natVal padZero renderNat
  rw [List.foldl_append]
  have hz : ∀ k, List.foldl (fun a c => 10 * a + digitVal c) 0
      (List.replicate k '0') = 0 := by
    intro k
    induction k with
    | zero => rfl
    | succ k ih =>
      rw [List.replicate_succ, List.foldl_cons]
      exact ih
  rw [hz]
  have hlt : ∀ d ∈ (Nat.digits 10 n).reverse, d < 10 := fun d hd =>
    Nat.digits_lt_base (by norm_num) (List.mem_reverse.mp hd)
  rw [foldl_map_digitChar _ hlt 0, List.reverse_reverse, Nat.ofDigits_digits]
  simp

theorem all_isDigitChar_padZero_renderNat (w n : Nat) :
    (padZero w (renderNat n)).all isDigitChar = true := by
  rw [List.all_eq_true]
  intro c hc
  unfold padZero renderNat at hc
  rcases List.mem_append.mp hc with h | h
  · rw [List.eq_of_mem_replicate h]
    decide
  · obtain ⟨d, hd, rfl⟩ := List.mem_map.mp h
    exact isDigitChar_digitChar d
      (Nat.digits_lt_base (by norm_num) (List.mem_reverse.mp hd))

theorem padZero_ne_nil (w : Nat) (hw : 1 ≤ w) (l : List Char) :
    padZero w l ≠ [] := by
  unfold padZero
  intro h
  rcases List.append_eq_nil.mp h with ⟨h1, h2⟩
  subst h2
  rw [List.replicate_eq_nil_iff] at h1
  simp at h1
  omega

theorem parseNat_padZero_renderNat (w n : Nat) (hw : 1 ≤ w) :
    parseNat (padZero w (renderNat n)) = some n := by
  unfold parseNat
  have h1 : (padZero w (renderNat n)).isEmpty = false := by
    cases h : (padZero w (renderNat n)).isEmpty with
    | false => rfl
    | true =>
      exact absurd (List.isEmpty_iff.mp h) (padZero_ne_nil w hw _)
  rw [h1, all_isDigitChar_padZero_renderNat, natVal_padZero_renderNat]
  rfl

theorem ne_dash_padZero_renderNat (w n : Nat) :
    ∀ c ∈ padZero w (renderNat n), c ≠ '-' := by
  intro c hc
  unfold padZero renderNat at hc
  rcases List.mem_append.mp hc with h | h
  · rw [List.eq_of_mem_replicate h]
    decide
  · obtain ⟨d, hd, rfl⟩ := List.mem_map.mp h
    exact digitChar_ne_dash d
      (Nat.digits_lt_base (by norm_num) (List.mem_reverse.mp hd))

theorem splitDash_ne_nil (l : List Char) : splitDash l ≠ [] := by
  cases l with
  | nil => simp [splitDash]
  | cons c cs =>
    show (match splitDash cs with
      | [] => [[]]
      | h :: t => if c = '-' then [] :: h :: t else (c :: h) :: t) ≠ []
    cases splitDash cs with
    | nil => simp
    | cons hd tl => by_cases hc : c = '-' <;> simp [hc]

theorem splitDash_no_dash (a : List Char) (h : ∀ c ∈ a, c ≠ '-') :
    splitDash a = [a] := by
  induction a with
  | nil => rfl
  | cons c cs ih =>
    have hc : c ≠ '-' := h c (List.mem_cons_self c cs)
    have ih2 := ih (fun x hx => h x (List.mem_cons_of_mem c hx))
    show (match splitDash cs with
      | [] => [[]]
      | hd :: t => if c = '-' then [] :: hd :: t else (c :: hd) :: t) =
        [c :: cs]
    rw [ih2]
    simp [hc]

theorem splitDash_append (a r : List Char) (h : ∀ c ∈ a, c ≠ '-') :
    splitDash (a ++ '-' :: r) = a :: splitDash r := by
  induction a with
  | nil =>
    show (match splitDash r with
      | [] => [[]]
      | hd :: t => if ('-' : Char) = '-' then [] :: hd :: t
        else ('-' :: hd) :: t) = [] :: splitDash r
    cases hs : splitDash r with
    | nil => exact absurd hs (splitDash_ne_nil r)
    | cons hd tl => simp
  | cons c cs ih =>
    have hc : c ≠ '-' := h c (List.mem_cons_self c cs)
    have ih2 := ih (fun x hx => h x (List.mem_cons_of_mem c hx))
    show (match splitDash (cs ++ '-' :: r) with
      | [] => [[]]
      | hd :: t => if c = '-' then [] :: hd :: t else (c :: hd) :: t) =
        (c :: cs) :: splitDash r
    rw [ih2]
    simp [hc]

/-- Serializing a valid ledger date through the strftime format and
parsing it back yields the same date. -/
theorem parseDate_formatDate (d : Date) (hv : validDate d = true) :
    parseDate (formatDate d) = some d := by
  obtain ⟨y, m, dd⟩ := d
  unfold formatDate parseDate
  rw [splitDash_append _ _ (ne_dash_padZero_renderNat 4 y),
    splitDash_append _ _ (ne_dash_padZero_renderNat 2 m),
    splitDash_no_dash _ (ne_dash_padZero_renderNat 2 dd)]
  simp only [parseNat_padZero_renderNat 4 y (by norm_num),
    parseNat_padZero_renderNat 2 m (by norm_num),
    parseNat_padZero_renderNat 2 dd (by norm_num)]
  rw [if_pos hv]

theorem addMissing_save_frame (L : List Row) :
    addMissing (save_frame L) = save_frame L := rfl

theorem dropBadDates_serialized (L : List Row)
    (hL : ∀ r ∈ L, validDate r.date = true) :
    dropBadDates 0 (L.map serializeRow) = L.map loadedRow := by
  induction L with
  | nil => rfl
  | cons r t ih =>
    have hr := hL r (List.mem_cons_self r t)
    have ih2 := ih (fun x hx => hL x (List.mem_cons_of_mem r hx))
    have hp : parseDateCell ((serializeRow r).getD 0 (Cell.str (""))) =
        some r.date := by
      show parseDate (formatDate r.date) = some r.date
      exact parseDate_formatDate r.date hr
    show (match parseDateCell ((serializeRow r).getD 0 (Cell.str (""))) with
      | some d => (serializeRow r).set 0 (Cell.date d) ::
          dropBadDates 0 (t.map serializeRow)
      | none => dropBadDates 0 (t.map serializeRow)) = _
    rw [hp, ih2]
    rfl

/-- C7: saving a ledger whose rows all carry valid calendar dates and
immediately loading it back yields the same ledger: the same five columns
in the same order, one row per saved row in the same order, every cell
equal except the date cell, whose serialized text parses back to the very
same calendar date. -/
theorem save_load_roundtrip (L : List Row)
    (hL : ∀ r ∈ L, validDate r.date = true) :
    load_data (some (save_frame L)) = ⟨requiredCols, L.map loadedRow⟩ := by
  cases L with
  | nil => rfl
  | cons r t =>
    have e : load_data (some (save_frame (r :: t))) =
        ⟨(addMissing (save_frame (r :: t))).cols,
          dropBadDates ((addMissing (save_frame (r :: t))).cols.findIdx
            (fun c => c == "날짜"))
            (addMissing (save_frame (r :: t))).rows⟩ := rfl
    rw [e, addMissing_save_frame]
    show (⟨requiredCols, dropBadDates 0 ((r :: t).map serializeRow)⟩ :
      RawFrame) = _
    rw [dropBadDates_serialized (r :: t) hL]

/-- Witness for the round-trip claim at a concrete two-row ledger with
valid dates. -/
theorem save_load_roundtrip_witness :
    load_data (some (save_frame scenarioRows)) =
      ⟨requiredCols, scenarioRows.map loadedRow⟩ :=
  save_load_roundtrip scenarioRows (by decide)

end MyAsset
